import Mathlib

/-!
Shallow embedding of the service-binding component of
vscode-kubernetes-tools: `src/components/services/binding.ts` (flows,
process-wide instance cache, tabular CLI output parser, `svcat bind` /
`kubectl get secret` wrappers) and `src/components/services/util.ts`
(chart-values document mutation, duplicate check, removal).

External collaborators (process executor, quick pick, notifier,
clipboard, file store) are modelled as explicit inputs and an ordered
effect trace.  JavaScript strings are Lean `String`s; a value of static
type `string | undefined` is `Option String`; machine behaviour such as
`indexOf` truthiness and `Object.keys(undefined)` throwing is modelled
faithfully.
-/

namespace SvcBinding

/-- JavaScript `String.prototype.split` with a one-character separator,
on explicit character lists; e.g. splitting `"a,,b"` on `,` yields
`["a", "", "b"]` and the empty string yields `[""]`. -/
def splitCharList (c : Char) : List Char → List (List Char)
  | [] => [[]]
  | a :: as =>
    if a = c then [] :: splitCharList c as
    else
      match splitCharList c as with
      | [] => [[a]]
      | t :: ts => (a :: t) :: ts

/-- JavaScript `s.split(c)` for a one-character separator `c`. -/
def jsSplit (c : Char) (s : String) : List String :=
  (splitCharList c s.data).map (fun t => String.mk t)

/-- Whether the first list occurs at the very front of the second. -/
def leadsList : List Char → List Char → Bool
  | [], _ => true
  | _ :: _, [] => false
  | a :: as, b :: bs => a = b && leadsList as bs

/-- JavaScript `String.prototype.indexOf`: the first index at which the
pattern occurs in the string, or `-1` when it does not occur. -/
def jsIndexOf (s pat : String) : Int :=
  match (List.range (s.data.length + 1)).find? (fun i => leadsList pat.data (s.data.drop i)) with
  | some i => (i : Int)
  | none => -1

/-- JavaScript string interpolation of a `string | undefined` value:
`undefined` prints as `"undefined"` inside a template literal. -/
def jsStr : Option String → String
  | some s => s
  | none => "undefined"

/-- A JavaScript value of static type `string | null | undefined`. -/
inductive JsStrVal where
  | str (s : String)
  | null
  | undefVal
deriving DecidableEq, Repr

/-- The `string | undefined` argument `serviceName`, as the value
`return serviceName` produces. -/
def jsOfOpt : Option String → JsStrVal
  | some s => .str s
  | none => .undefVal

/-- JavaScript truthiness of a `string | null | undefined` value: the
empty string, `null` and `undefined` are all falsy. -/
def JsStrVal.truthy : JsStrVal → Bool
  | .str s => s ≠ ""
  | .null => false
  | .undefVal => false

/-- A resolved process invocation: exit code, stdout, stderr. -/
structure ExecResult where
  code : Int
  stdout : String
  stderr : String
deriving DecidableEq, Repr

/-- Outcome of one process-executor invocation: the promise either
rejects (`threw`) or resolves with an `ExecResult`. -/
inductive ExecAttempt where
  | threw
  | ok (r : ExecResult)
deriving DecidableEq, Repr

/-- Observable external effects of a flow, in invocation order. -/
inductive Effect where
  | execCLI (cmd : String)
  | showInfo (msg : String)
  | showError (msg : String)
  | clipboard (text : String)
  | unlink (path : String)
  | writeFile (path : String)
deriving DecidableEq, Repr

/-- File-store effects: a delete or a write, i.e. a persistence call. -/
def Effect.isPersist : Effect → Bool
  | .unlink _ => true
  | .writeFile _ => true
  | _ => false

/-- Result of `createOrGetServiceBinding`: the returned value and the
effects performed. -/
structure BindOutcome where
  binding : JsStrVal
  effects : List Effect
deriving DecidableEq, Repr

/-- `createOrGetServiceBinding` (binding.ts, lines 167-187): runs
`svcat bind <serviceName>`.  If the invocation throws, reports an error
and returns `undefined` (bare `return;`).  On a non-zero exit code it
tests `results.stderr.indexOf("already exists")` for truthiness — i.e.
the branch is taken for every index other than `0`, including `-1`
(pattern absent) — and returns `serviceName`; otherwise it reports an
error and returns `null`.  On a zero exit code it returns
`serviceName`. -/
def createOrGetServiceBinding (serviceName : Option String) (exec : ExecAttempt) : BindOutcome :=
  let cmd := Effect.execCLI ("svcat bind " ++ jsStr serviceName)
  match exec with
  | .threw =>
    ⟨.undefVal, [cmd, .showError ("Error binding to External Service \"" ++ jsStr serviceName ++ "\"")]⟩
  | .ok results =>
    if results.code ≠ 0 then
      if jsIndexOf results.stderr "already exists" ≠ 0 then
        ⟨jsOfOpt serviceName, [cmd]⟩
      else
        ⟨.null, [cmd, .showError ("Could not bind to External Service \"" ++ jsStr serviceName ++ "\"")]⟩
    else
      ⟨jsOfOpt serviceName, [cmd]⟩

/-- C1: the claimed decision policy ("failure whose stderr contains
'already exists' reuses the name; every other failure reports an error
and returns null") does not match the code.  At exit code 1 with stderr
`"connection refused"` — which does not contain `"already exists"` —
the code returns the service name with no error notice, because
`indexOf` yields `-1`, which is truthy; and at a stderr that starts
with `"already exists"` the code reports an error and returns null,
because `indexOf` yields `0`, which is falsy. -/
theorem C1_bind_failure_misclassified :
    createOrGetServiceBinding (some "mydb") (.ok ⟨1, "", "connection refused"⟩) =
      ⟨.str "mydb", [.execCLI "svcat bind mydb"]⟩ ∧
    createOrGetServiceBinding (some "mydb") (.ok ⟨1, "", "already exists: binding for mydb"⟩) =
      ⟨.null, [.execCLI "svcat bind mydb",
               .showError "Could not bind to External Service \"mydb\""]⟩ := by
  exact ⟨by decide, by decide⟩

/-- An in-cluster Kubernetes service as extracted from the structured
`get svc` listing (`metadata.name`, `metadata.namespace`). -/
structure Service where
  name : String
  «namespace» : String
deriving DecidableEq, Repr

/-- One service-catalog instance row.  Fields are `Option String`
because a data row with fewer than five tokens leaves the trailing
fields `undefined`. -/
structure ServiceInstance where
  name : Option String
  «namespace» : Option String
  «class» : Option String
  plan : Option String
  status : Option String
deriving DecidableEq, Repr

/-- The process-wide instance cache: `ServiceInstanceNames`,
`ServiceInstanceMap` (a JavaScript object, modelled as an association
list with unique keys) and `ServiceInstanceArray`. -/
structure CacheState where
  names : List (Option String)
  map : List (Option String × ServiceInstance)
  array : List ServiceInstance
deriving DecidableEq, Repr

/-- JavaScript object property assignment `m[k] = v`: overwrite the
existing property or append a new one. -/
def mapInsert (m : List (Option String × ServiceInstance)) (k : Option String)
    (v : ServiceInstance) : List (Option String × ServiceInstance) :=
  if m.any (fun p => p.1 = k) then m.map (fun p => if p.1 = k then (k, v) else p)
  else m ++ [(k, v)]

/-- The two binding kinds, i.e. the two named document sections. -/
inductive ServiceType where
  | serviceEnv
  | serviceCatalogEnv
deriving DecidableEq, Repr

/-- The other binding kind. -/
def ServiceType.otherKind : ServiceType → ServiceType
  | .serviceEnv => .serviceCatalogEnv
  | .serviceCatalogEnv => .serviceEnv

/-- A value of static type `string | string[]`, as passed through
`writeSecretData` and `writeUsageToClipboard`. -/
inductive StrOrList where
  | str (s : String)
  | list (l : List String)
deriving DecidableEq, Repr

/-- The two entry shapes: `{name, value}` for `serviceEnv` and
`{name, vars}` for `serviceCatalogEnv`. -/
inductive BindingPayload where
  | value (v : StrOrList)
  | vars (v : StrOrList)
deriving DecidableEq, Repr

/-- One entry of a binding section. -/
structure BindingEntry where
  name : String
  payload : BindingPayload
deriving DecidableEq, Repr

/-- The parsed chart values content: the two optional binding sections
plus the untouched remainder of the document. -/
structure ChartContent where
  serviceEnv : Option (List BindingEntry)
  serviceCatalogEnv : Option (List BindingEntry)
  other : List (String × String)
deriving DecidableEq, Repr

/-- A loaded chart values document (`{path, yaml}`). -/
structure ChartYaml where
  path : String
  yaml : ChartContent
deriving DecidableEq, Repr

/-- The dynamic lookup `valuesYaml[serviceType]`. -/
def getSection (y : ChartContent) (t : ServiceType) : Option (List BindingEntry) :=
  match t with
  | .serviceEnv => y.serviceEnv
  | .serviceCatalogEnv => y.serviceCatalogEnv

/-- The dynamic store `valuesYaml[serviceType] = l`. -/
def setSection (y : ChartContent) (t : ServiceType) (l : List BindingEntry) : ChartContent :=
  match t with
  | .serviceEnv => { y with serviceEnv := some l }
  | .serviceCatalogEnv => { y with serviceCatalogEnv := some l }

/-- `isBindingAdded` (util.ts, lines 72-82): `false` when the section is
absent, otherwise whether some entry of the section has the given
name. -/
def isBindingAdded (t : ServiceType) (bindingName : String) (valuesYaml : ChartContent) : Bool :=
  match getSection valuesYaml t with
  | none => false
  | some environment => environment.any (fun binding => binding.name = bindingName)

/-- `writeSecretData` (util.ts, lines 24-63): builds the entry shape for
the kind, pushes it onto the section (creating the section as a
one-element array when absent), then unlinks the file and rewrites it. -/
def writeSecretData (t : ServiceType) (bindingName : String) (value : StrOrList)
    (chartYaml : ChartYaml) : ChartYaml × List Effect :=
  let entry : BindingEntry :=
    match t with
    | .serviceEnv => ⟨bindingName, .value value⟩
    | .serviceCatalogEnv => ⟨bindingName, .vars value⟩
  let yaml2 :=
    match getSection chartYaml.yaml t with
    | some sec => setSection chartYaml.yaml t (sec ++ [entry])
    | none => setSection chartYaml.yaml t [entry]
  (⟨chartYaml.path, yaml2⟩, [.unlink chartYaml.path, .writeFile chartYaml.path])

/-- `writeUsageToClipboard` (util.ts, lines 98-123): for `serviceEnv` a
single-line comment on the clipboard; for `serviceCatalogEnv` an info
notice then a multi-line comment listing `BINDING_KEY` variables.  A
plain string iterates per character, as `for..of` does in JavaScript. -/
def writeUsageToClipboard (t : ServiceType) (bindingName : String)
    (secretKeys : StrOrList) : List Effect :=
  match t with
  | .serviceEnv =>
    [.clipboard ("// To use service " ++ bindingName ++
      ", we added an environment variable containing the DNS hostname: SERVICE_" ++
      bindingName.toUpper)]
  | .serviceCatalogEnv =>
    let keys : List String :=
      match secretKeys with
      | .list ks => ks
      | .str s => s.data.map (fun ch => String.mk [ch])
    let msgs := keys.map (fun v => "// " ++ (bindingName ++ "_" ++ v).toUpper)
    [.showInfo "Wrote Service Usage information to your clipboard.",
     .clipboard ("// To use service " ++ bindingName ++
       ", we added a number of environment variables\n// to your application, as listed below:\n" ++
       String.intercalate "\n" msgs)]

/-- Whether a flow returned normally (including early aborts) or threw
an unhandled exception. -/
inductive FlowOutcome where
  | returned
  | crashed
deriving DecidableEq, Repr

/-- `removeServiceBinding` (util.ts, lines 136-166), after the document
has been loaded, with the quick-pick selection as an explicit input
(`none` models `undefined`, i.e. a cancelled prompt).  An absent
section crashes: `chartYaml.yaml[serviceType].length` is a property
read on `undefined`. -/
def removeServiceBinding (t : ServiceType) (chartYaml : ChartYaml)
    (selection : Option String) : ChartYaml × List Effect × FlowOutcome :=
  match getSection chartYaml.yaml t with
  | none => (chartYaml, [], .crashed)
  | some sec =>
    if sec.length = 0 then
      (chartYaml, [.showInfo "No Services to remove."], .returned)
    else
      match selection with
      | none => (chartYaml, [], .returned)
      | some bindingToRemove =>
        if bindingToRemove = "" then (chartYaml, [], .returned)
        else
          let pruned := sec.filter (fun binding => binding.name ≠ bindingToRemove)
          let yaml2 := setSection chartYaml.yaml t pruned
          (⟨chartYaml.path, yaml2⟩,
           [.unlink chartYaml.path, .writeFile chartYaml.path], .returned)

/-- One data line of `svcat get instances` output: split on single
spaces, drop empty tokens, take positional fields 0..4. -/
def parseLine (line : String) : ServiceInstance :=
  let filtered := (jsSplit ' ' line).filter (fun s => s.length ≠ 0)
  ⟨filtered.get? 0, filtered.get? 1, filtered.get? 2, filtered.get? 3, filtered.get? 4⟩

/-- The data rows of the tabular output: drop the first two lines (title
and column header), drop empty lines. -/
def dataRows (results : String) : List String :=
  ((jsSplit '\n' results).drop 2).filter (fun s => s.length ≠ 0)

/-- The cache updates of the parser loop, one instance at a time: push
the name, store into the map, push onto the array. -/
def cacheAppend : CacheState → List ServiceInstance → CacheState
  | st, [] => st
  | st, si :: rest =>
    cacheAppend ⟨st.names ++ [si.name], mapInsert st.map si.name si, st.array ++ [si]⟩ rest

/-- `cleanUpInstanceResults` (binding.ts, lines 216-243): parse the data
rows in order, appending every parsed record into the process-wide
cache, and return the parsed records. -/
def cleanUpInstanceResults (cache : CacheState) (results : String) :
    CacheState × List ServiceInstance :=
  let cleaned := (dataRows results).map parseLine
  (cacheAppend cache cleaned, cleaned)

/-- `getServiceInstances` (binding.ts, lines 193-214): when both the
name list and the map are non-empty, return the cached array without
any external call; otherwise run `svcat get instances`, reporting an
error (and returning `undefined`) when the invocation throws or exits
non-zero, else parse stdout (which also populates the cache). -/
def getServiceInstances (cache : CacheState) (exec : ExecAttempt) :
    Option (List ServiceInstance) × CacheState × List Effect :=
  if cache.names.length ≠ 0 ∧ cache.map.length ≠ 0 then
    (some cache.array, cache, [])
  else
    match exec with
    | .threw =>
      (none, cache, [.execCLI "svcat get instances",
                     .showError "Error retrieving Service Instances"])
    | .ok results =>
      if results.code ≠ 0 then
        (none, cache, [.execCLI "svcat get instances",
                       .showError "Error retrieving Service Instances"])
      else
        let p := cleanUpInstanceResults cache results.stdout
        (some p.2, p.1, [.execCLI "svcat get instances"])

/-- Outcome of the `kubectl get secret <name> -o json` call; on success
the parsed secret's `data` object is abstracted to its list of keys. -/
inductive SecretCallOutcome where
  | threw
  | ok (code : Int) (dataKeys : List String)
deriving DecidableEq, Repr

/-- `getSecretData` (binding.ts, lines 145-161): reports an error and
returns `undefined` (`none`) when the invocation throws or exits
non-zero; otherwise returns the parsed secret data. -/
def getSecretData (secretName : String) (exec : SecretCallOutcome) :
    Option (List String) × List Effect :=
  let cmd := Effect.execCLI ("get secret " ++ secretName ++ " -o json")
  match exec with
  | .threw =>
    (none, [cmd, .showError ("Could not find the External Service secret " ++ secretName ++
      " on the cluster")])
  | .ok code dataKeys =>
    if code ≠ 0 then
      (none, [cmd, .showError ("Could not get External Service " ++ secretName ++
        " on the cluster")])
    else
      (some dataKeys, [cmd])

/-- Result of an add flow: final document, effect trace, outcome. -/
structure FlowResult where
  doc : ChartYaml
  effects : List Effect
  outcome : FlowOutcome
deriving DecidableEq, Repr

/-- The `kubectl get svc -o json` result, with stdout abstracted to the
parsed `items` list (the sentinel failure code `-1` short-circuits
before any parsing). -/
structure GetSvcResult where
  code : Int
  items : List Service
deriving DecidableEq, Repr

/-- `addService` (binding.ts, lines 45-91), after the document has been
loaded, with the service listing and the quick-pick selection as
explicit inputs.  Only the literal empty-string selection is guarded;
a cancelled prompt (`undefined`) reaches the name filter, whose first
element is then `undefined`, and reading `.name` on it throws. -/
def addService (chartYaml : ChartYaml) (serviceResult : GetSvcResult)
    (selection : Option String) : FlowResult :=
  let e0 := [Effect.execCLI "get svc -o json"]
  if serviceResult.code = -1 then ⟨chartYaml, e0, .returned⟩
  else if serviceResult.items.length = 0 then
    ⟨chartYaml, e0 ++ [.showInfo "No services found in current namespace"], .returned⟩
  else if selection = some "" then ⟨chartYaml, e0, .returned⟩
  else
    match serviceResult.items.find? (fun service => some service.name = selection) with
    | none => ⟨chartYaml, e0, .crashed⟩
    | some serviceObj =>
      let dnsName := serviceObj.name ++ "." ++ serviceObj.«namespace» ++ ".svc.cluster.local"
      if isBindingAdded .serviceEnv serviceObj.name chartYaml.yaml then
        ⟨chartYaml, e0, .returned⟩
      else
        let w := writeSecretData .serviceEnv serviceObj.name (.str dnsName) chartYaml
        ⟨w.1, e0 ++ w.2 ++ writeUsageToClipboard .serviceEnv serviceObj.name (.str serviceObj.name)
          ++ [.showInfo "Wrote service info to your clipboard"], .returned⟩

/-- Inputs of `addExternalService`: the loaded document, the current
cache, the discovery invocation (used only when the cache is empty),
the quick-pick selection, the bind invocation and the secret fetch. -/
structure ExtFlowInput where
  chart : ChartYaml
  cache : CacheState
  instancesExec : ExecAttempt
  selection : Option String
  bindExec : ExecAttempt
  secretExec : SecretCallOutcome
deriving DecidableEq, Repr

/-- Result of the external flow: final document, final cache, effect
trace, outcome. -/
structure ExtFlowResult where
  doc : ChartYaml
  cache : CacheState
  effects : List Effect
  outcome : FlowOutcome
deriving DecidableEq, Repr

/-- `addExternalService` (binding.ts, lines 102-130), after the document
has been loaded.  The selection is not guarded at all: it flows
directly into `createOrGetServiceBinding` (a cancelled prompt yields
the command `svcat bind undefined`); only the falsiness of the returned
binding aborts.  A failed secret fetch returns `undefined`, on which
`Object.keys` throws. -/
def addExternalService (inp : ExtFlowInput) : ExtFlowResult :=
  let popStep :=
    if inp.cache.names.length = 0 ∧ inp.cache.map.length = 0 then
      getServiceInstances inp.cache inp.instancesExec
    else (none, inp.cache, [])
  let cache1 := popStep.2.1
  let e1 := popStep.2.2
  let serviceToBind := inp.selection
  let bres := createOrGetServiceBinding serviceToBind inp.bindExec
  let e2 := e1 ++ bres.effects
  if bres.binding.truthy = false then ⟨inp.chart, cache1, e2, .returned⟩
  else
    match bres.binding with
    | .null => ⟨inp.chart, cache1, e2, .returned⟩
    | .undefVal => ⟨inp.chart, cache1, e2, .returned⟩
    | .str binding =>
      if isBindingAdded .serviceCatalogEnv binding inp.chart.yaml then
        ⟨inp.chart, cache1, e2, .returned⟩
      else
        let sres := getSecretData binding inp.secretExec
        let e3 := e2 ++ sres.2
        match sres.1 with
        | none => ⟨inp.chart, cache1, e3, .crashed⟩
        | some secretKeys =>
          let w := writeSecretData .serviceCatalogEnv binding (.list secretKeys) inp.chart
          ⟨w.1, cache1,
           e3 ++ w.2 ++ writeUsageToClipboard .serviceCatalogEnv binding (.list secretKeys)
             ++ [.showInfo ("Bound the application to External Service \"" ++
                   jsStr serviceToBind ++ "\"")],
           .returned⟩

/-- Dropping a prefix cannot lengthen a list. -/
theorem dropWhile_len_le {α : Type} (p : α → Bool) (l : List α) :
    (l.dropWhile p).length ≤ l.length := by
  induction l with
  | nil => simp
  | cons a as ih =>
    rw [List.dropWhile_cons]
    by_cases hpa : p a = true
    · rw [if_pos hpa]
      exact Nat.le_succ_of_le ih
    · rw [if_neg hpa]

/-- The first element surviving `dropWhile` falsifies the predicate. -/
theorem dropWhile_first_false {α : Type} (p : α → Bool) :
    ∀ (l : List α) (d : α) (r : List α), l.dropWhile p = d :: r → p d = false := by
  intro l
  induction l with
  | nil => intro d r h; simp [List.dropWhile] at h
  | cons a as ih =>
    intro d r h
    rw [List.dropWhile_cons] at h
    cases hpa : p a with
    | true =>
      rw [hpa, if_pos rfl] at h
      exact ih d r h
    | false =>
      rw [hpa, if_neg (by simp)] at h
      injection h with h1 h2
      rw [← h1]
      exact hpa

/-- Not being the separator character, as a reusable Bool predicate. -/
def nonSep (c b : Char) : Bool := b ≠ c

/-- Splitting a list into maximal runs of non-separator characters (the
specification's "split on whitespace runs"). -/
def runTokens (c : Char) : List Char → List (List Char)
  | [] => []
  | a :: as =>
    if nonSep c a then
      (a :: as.takeWhile (nonSep c)) :: runTokens c (as.dropWhile (nonSep c))
    else runTokens c as
termination_by l => l.length
decreasing_by
  all_goals simp_wf
  all_goals first
    | exact Nat.lt_succ_of_le (dropWhile_len_le _ _)
    | omega

theorem runTokens_nil (c : Char) : runTokens c [] = [] := by
  rw [runTokens]

theorem runTokens_cons (c a : Char) (as : List Char) :
    runTokens c (a :: as) =
      if nonSep c a then
        (a :: as.takeWhile (nonSep c)) :: runTokens c (as.dropWhile (nonSep c))
      else runTokens c as := by
  rw [runTokens]

theorem splitCharList_nil (c : Char) : splitCharList c [] = [[]] := rfl

theorem splitCharList_cons (c a : Char) (as : List Char) :
    splitCharList c (a :: as) =
      if a = c then [] :: splitCharList c as
      else
        match splitCharList c as with
        | [] => [[a]]
        | t :: ts => (a :: t) :: ts := rfl

/-- The tail of a JavaScript-style split after the first separator. -/
def splitRest (c : Char) : List Char → List (List Char)
  | [] => []
  | _ :: r => splitCharList c r

/-- A JavaScript-style split is the run before the first separator
followed by the split of whatever comes after that separator. -/
theorem splitCharList_eq (c : Char) (l : List Char) :
    splitCharList c l =
      l.takeWhile (nonSep c) :: splitRest c (l.dropWhile (nonSep c)) := by
  induction l with
  | nil => rfl
  | cons a as ih =>
    rw [List.takeWhile_cons, List.dropWhile_cons]
    by_cases h : a = c
    · have hn : nonSep c a = false := by simp [nonSep, h]
      rw [hn, if_neg (by simp), if_neg (by simp), splitCharList_cons, if_pos h]
      rfl
    · have hn : nonSep c a = true := by simp [nonSep, h]
      rw [hn, if_pos rfl, if_pos rfl, splitCharList_cons, if_neg h, ih]

/-- Splitting on single separators and dropping the empty fragments is
the same as splitting on maximal separator runs. -/
theorem filter_split_eq_runTokens (c : Char) :
    ∀ (n : Nat) (l : List Char), l.length ≤ n →
      (splitCharList c l).filter (fun t => t.length ≠ 0) = runTokens c l := by
  intro n
  induction n with
  | zero =>
    intro l hl
    have hnil : l = [] := by
      cases l with
      | nil => rfl
      | cons a as => simp at hl
    rw [hnil, splitCharList_nil, runTokens_nil]
    rfl
  | succ n ih =>
    intro l hl
    cases l with
    | nil =>
      rw [splitCharList_nil, runTokens_nil]
      rfl
    | cons a as =>
      have has : as.length ≤ n := Nat.le_of_succ_le_succ hl
      by_cases h : a = c
      · have hn : nonSep c a = false := by simp [nonSep, h]
        rw [splitCharList_cons, if_pos h, runTokens_cons, hn, if_neg (by simp),
          List.filter_cons_of_neg (by simp)]
        exact ih as has
      · have hn : nonSep c a = true := by simp [nonSep, h]
        rw [splitCharList_eq c (a :: as), List.takeWhile_cons, List.dropWhile_cons, hn,
          if_pos rfl, if_pos rfl, runTokens_cons, hn, if_pos rfl,
          List.filter_cons_of_pos (by simp)]
        congr 1
        rcases hd : as.dropWhile (nonSep c) with _ | ⟨d, r⟩
        · rw [splitRest, runTokens_nil]
          rfl
        · have hdc : nonSep c d = false := dropWhile_first_false (nonSep c) as d r hd
          rw [splitRest, runTokens_cons, hdc, if_neg (by simp)]
          apply ih
          have hlen : (d :: r).length ≤ as.length := by
            rw [← hd]
            exact dropWhile_len_le _ _
          simp only [List.length_cons] at hlen
          omega

/-- After dropping empty fragments, the single-space split of a line
equals its whitespace-run tokenisation. -/
theorem jsSplit_filter_eq (line : String) :
    (jsSplit ' ' line).filter (fun s => s.length ≠ 0) =
      (runTokens ' ' line.data).map (fun t => String.mk t) := by
  unfold jsSplit
  rw [List.filter_map]
  have hp : ((fun s => decide (s.length ≠ 0)) ∘ fun t => String.mk t) =
      (fun t : List Char => decide (t.length ≠ 0)) := rfl
  rw [hp, filter_split_eq_runTokens ' ' line.data.length line.data (Nat.le_refl _)]

/-- The parser as the specification words it: drop the first two lines,
drop empty lines, split each remaining line on whitespace runs, and map
positional fields 0..4 to name, namespace, class, plan, status, in
source order. -/
def specParse (text : String) : List ServiceInstance :=
  (((jsSplit '\n' text).drop 2).filter (fun s => s.length ≠ 0)).map (fun line =>
    let toks := (runTokens ' ' line.data).map (fun t => String.mk t)
    ⟨toks.get? 0, toks.get? 1, toks.get? 2, toks.get? 3, toks.get? 4⟩)

/-- Each parsed line agrees with the whitespace-run description. -/
theorem parseLine_eq_spec (line : String) :
    parseLine line =
      (⟨((runTokens ' ' line.data).map (fun t => String.mk t)).get? 0,
        ((runTokens ' ' line.data).map (fun t => String.mk t)).get? 1,
        ((runTokens ' ' line.data).map (fun t => String.mk t)).get? 2,
        ((runTokens ' ' line.data).map (fun t => String.mk t)).get? 3,
        ((runTokens ' ' line.data).map (fun t => String.mk t)).get? 4⟩ : ServiceInstance) := by
  unfold parseLine
  rw [jsSplit_filter_eq]

/-- C3: the parser drops exactly the first two lines and all empty
lines, splits each remaining line on whitespace runs, maps positional
fields 0..4 to name, namespace, class, plan, status in source order;
and the concrete tabular input of the scenario parses to exactly one
record {name foo, namespace default, class mysqldb, plan free,
status Ready}. -/
theorem C3_parser_correct :
    (∀ (cache : CacheState) (text : String),
        (cleanUpInstanceResults cache text).2 = specParse text) ∧
    (cleanUpInstanceResults ⟨[], [], []⟩
        "TITLE\nNAME NAMESPACE CLASS PLAN STATUS\nfoo  default  mysqldb  free  Ready\n").2 =
      [⟨some "foo", some "default", some "mysqldb", some "free", some "Ready"⟩] := by
  constructor
  · intro cache text
    show (dataRows text).map parseLine = specParse text
    unfold specParse dataRows
    congr 1
    funext line
    exact parseLine_eq_spec line
  · decide

/-- The entry shape the specification prescribes for each kind:
`{name, value}` under `serviceEnv`, `{name, vars}` under
`serviceCatalogEnv`. -/
def specEntryFor (t : ServiceType) (n : String) (v : StrOrList) : BindingEntry :=
  match t with
  | .serviceEnv => ⟨n, .value v⟩
  | .serviceCatalogEnv => ⟨n, .vars v⟩

/-- Effect of `writeSecretData` on the document tree: the named section
gets the kind-shaped entry appended (created as a singleton when
absent); the other section, the rest of the document and the path are
untouched. -/
theorem writeSecretData_sections (t : ServiceType) (n : String) (v : StrOrList)
    (doc : ChartYaml) :
    (writeSecretData t n v doc).1.path = doc.path ∧
    getSection (writeSecretData t n v doc).1.yaml t =
      some ((getSection doc.yaml t).getD [] ++ [specEntryFor t n v]) ∧
    getSection (writeSecretData t n v doc).1.yaml t.otherKind =
      getSection doc.yaml t.otherKind ∧
    (writeSecretData t n v doc).1.yaml.other = doc.yaml.other := by
  obtain ⟨p, se, sce, oth⟩ := doc
  cases t <;> cases se <;> cases sce <;>
    simp [writeSecretData, getSection, setSection, specEntryFor, ServiceType.otherKind]

/-- C5: the write operation builds the BindingEntry shape for the kind
({name, value} for serviceEnv, {name, vars} for serviceCatalogEnv) and
appends it to the named section of the in-memory document, creating the
section as a single-element sequence when absent; the other section,
the remaining document content and the path are unchanged. -/
theorem C5_write_builds_and_appends (t : ServiceType) (n : String) (v : StrOrList)
    (doc : ChartYaml) :
    (writeSecretData t n v doc).1.path = doc.path ∧
    getSection (writeSecretData t n v doc).1.yaml t =
      some ((getSection doc.yaml t).getD [] ++ [specEntryFor t n v]) ∧
    getSection (writeSecretData t n v doc).1.yaml t.otherKind =
      getSection doc.yaml t.otherKind ∧
    (writeSecretData t n v doc).1.yaml.other = doc.yaml.other :=
  writeSecretData_sections t n v doc

/-- Reading back the section just stored. -/
theorem getSection_setSection (y : ChartContent) (t : ServiceType) (l : List BindingEntry) :
    getSection (setSection y t l) t = some l := by
  cases t <;> rfl

/-- The entries matching a name and those not matching it partition a
section. -/
theorem length_filter_name_split (y : String) (l : List BindingEntry) :
    (l.filter (fun b => b.name = y)).length + (l.filter (fun b => b.name ≠ y)).length =
      l.length := by
  induction l with
  | nil => rfl
  | cons a as ih =>
    by_cases hpa : a.name = y
    · rw [List.filter_cons_of_pos (by simp [hpa]), List.filter_cons_of_neg (by simp [hpa])]
      simp only [List.length_cons]
      omega
    · rw [List.filter_cons_of_neg (by simp [hpa]), List.filter_cons_of_pos (by simp [hpa])]
      simp only [List.length_cons]
      omega

/-- Branch form of the removal flow on a present section. -/
theorem removeServiceBinding_some (t : ServiceType) (doc : ChartYaml)
    (sec : List BindingEntry) (y : String) (hsec : getSection doc.yaml t = some sec) :
    removeServiceBinding t doc (some y) =
      if sec.length = 0 then (doc, [.showInfo "No Services to remove."], .returned)
      else if y = "" then (doc, [], .returned)
      else (⟨doc.path, setSection doc.yaml t (sec.filter (fun b => b.name ≠ y))⟩,
            [.unlink doc.path, .writeFile doc.path], .returned) := by
  unfold removeServiceBinding
  rw [hsec]

/-- C6 (amended): for a present section containing exactly one entry
named Y, the removal flow with a non-empty selection Y yields the
section with that entry removed — one element shorter and with no entry
named Y left; and removal with a selection Y that no entry carries
leaves the section unchanged.  (The original claim without the
"non-empty Y" proviso fails: an empty-string selection is treated as a
cancelled prompt.) -/
theorem C6_removal_correct (t : ServiceType) (doc : ChartYaml) (sec : List BindingEntry)
    (y : String) (hsec : getSection doc.yaml t = some sec) :
    (y ≠ "" → (sec.filter (fun b => b.name = y)).length = 1 →
      getSection (removeServiceBinding t doc (some y)).1.yaml t =
        some (sec.filter (fun b => b.name ≠ y)) ∧
      (sec.filter (fun b => b.name ≠ y)).length + 1 = sec.length ∧
      (sec.filter (fun b => b.name ≠ y)).all (fun b => b.name ≠ y) = true) ∧
    ((∀ b ∈ sec, b.name ≠ y) →
      getSection (removeServiceBinding t doc (some y)).1.yaml t = some sec) := by
  rw [removeServiceBinding_some t doc sec y hsec]
  by_cases hlen : sec.length = 0
  · rw [if_pos hlen]
    have hsecnil : sec = [] := List.length_eq_zero.mp hlen
    constructor
    · intro _ hcount
      exfalso
      rw [hsecnil] at hcount
      simp at hcount
    · intro _
      exact hsec
  · rw [if_neg hlen]
    by_cases hy : y = ""
    · rw [if_pos hy]
      constructor
      · intro hy2 _
        exact absurd hy hy2
      · intro _
        exact hsec
    · rw [if_neg hy]
      constructor
      · intro _ hcount
        refine ⟨getSection_setSection _ _ _, ?_, ?_⟩
        · have hsplit := length_filter_name_split y sec
          omega
        · rw [List.all_eq_true]
          intro b hb
          have hpb := List.of_mem_filter hb
          simpa using hpb
      · intro hall
        have heq : sec.filter (fun b => b.name ≠ y) = sec :=
          List.filter_eq_self.mpr (fun b hb => by simpa using hall b hb)
        refine Eq.trans (getSection_setSection doc.yaml t (sec.filter (fun b => b.name ≠ y))) ?_
        rw [heq]

theorem C6_removal_correct_witness :
    getSection (removeServiceBinding .serviceEnv
        ⟨"p", ⟨some [⟨"a", BindingPayload.value (.str "v")⟩,
                     ⟨"b", BindingPayload.value (.str "w")⟩], none, []⟩⟩
        (some "a")).1.yaml .serviceEnv =
      some [⟨"b", BindingPayload.value (.str "w")⟩] := by
  have h := (C6_removal_correct .serviceEnv
      ⟨"p", ⟨some [⟨"a", BindingPayload.value (.str "v")⟩,
                   ⟨"b", BindingPayload.value (.str "w")⟩], none, []⟩⟩
      [⟨"a", BindingPayload.value (.str "v")⟩, ⟨"b", BindingPayload.value (.str "w")⟩]
      "a" rfl).1 (by decide) (by decide)
  simpa using h.1

/-- C6 counterexample: a section of size 1 whose only entry is named
`""`, with selection `""`: the claim as stated demands a resulting
section of size 0, but the code treats the empty-string selection as a
cancelled prompt and leaves the singleton section in place. -/
theorem C6_removal_claim_counterexample :
    (getSection (removeServiceBinding .serviceEnv
        ⟨"p", ⟨some [⟨"", BindingPayload.value (.str "v")⟩], none, []⟩⟩
        (some "")).1.yaml .serviceEnv).map List.length ≠ some 0 ∧
    (([⟨"", BindingPayload.value (.str "v")⟩] : List BindingEntry).filter
        (fun b => b.name = "")).length = 1 := by
  exact ⟨by decide, by decide⟩

/-- C7: the claim (and the specification's required behaviour) says an
absent section must be treated like an empty one — informational notice
"no services to remove", then abort.  The code instead reads `.length`
on `undefined` and throws: at a document with no `serviceEnv` section
the removal flow crashes with no notice shown and no file touched. -/
theorem C7_removal_missing_section_crashes :
    removeServiceBinding .serviceEnv ⟨"values.yaml", ⟨none, none, []⟩⟩ (some "x") =
      (⟨"values.yaml", ⟨none, none, []⟩⟩, [], .crashed) := by
  decide

/-- The record array grows by exactly the appended records. -/
theorem cacheAppend_array (l : List ServiceInstance) :
    ∀ (c : CacheState), (cacheAppend c l).array = c.array ++ l := by
  induction l with
  | nil => intro c; simp [cacheAppend]
  | cons si rest ih =>
    intro c
    show (cacheAppend ⟨c.names ++ [si.name], mapInsert c.map si.name si, c.array ++ [si]⟩
        rest).array = c.array ++ (si :: rest)
    rw [ih]
    simp

/-- Consistency of the three cache views, true of every state the
program can reach: the name list and the map are empty exactly when the
record array is. -/
def CacheState.wf (c : CacheState) : Prop :=
  (c.names = [] ↔ c.array = []) ∧ (c.map = [] ↔ c.array = [])

/-- C4: for two consecutive calls of the instance accessor, if the
cache's name list and map are non-empty at the second call, the second
call performs no effect at all (in particular no discovery invocation)
and returns the same sequence as the first call; across both calls the
discovery command runs at most once. -/
theorem C4_cache_populated_once (c0 : CacheState) (e1 e2 : ExecAttempt)
    (hwf : c0.wf)
    (h1 : (getServiceInstances c0 e1).2.1.names ≠ [])
    (h2 : (getServiceInstances c0 e1).2.1.map ≠ []) :
    (getServiceInstances (getServiceInstances c0 e1).2.1 e2).2.2 = [] ∧
    (getServiceInstances (getServiceInstances c0 e1).2.1 e2).1 = (getServiceInstances c0 e1).1 ∧
    ((getServiceInstances c0 e1).2.2 ++
        (getServiceInstances (getServiceInstances c0 e1).2.1 e2).2.2).count
      (Effect.execCLI "svcat get instances") ≤ 1 := by
  by_cases hg : c0.names.length ≠ 0 ∧ c0.map.length ≠ 0
  · have r1 : getServiceInstances c0 e1 = (some c0.array, c0, []) := by
      unfold getServiceInstances
      rw [if_pos hg]
    have r2 : getServiceInstances c0 e2 = (some c0.array, c0, []) := by
      unfold getServiceInstances
      rw [if_pos hg]
    rw [r1]
    rw [r2]
    refine ⟨rfl, rfl, ?_⟩
    show (([] : List Effect) ++ ([] : List Effect)).count (Effect.execCLI "svcat get instances") ≤ 1
    decide
  · have hg2 := hg
    rw [not_and_or] at hg2
    have harr : c0.array = [] := by
      rcases hg2 with hg2 | hg2
      · exact hwf.1.mp (List.length_eq_zero.mp (not_not.mp hg2))
      · exact hwf.2.mp (List.length_eq_zero.mp (not_not.mp hg2))
    have hn0 : c0.names = [] := hwf.1.mpr harr
    cases e1 with
    | threw =>
      have r1 : getServiceInstances c0 .threw =
          (none, c0, [.execCLI "svcat get instances",
                      .showError "Error retrieving Service Instances"]) := by
        unfold getServiceInstances
        rw [if_neg hg]
      rw [r1] at h1
      exact absurd hn0 h1
    | ok r =>
      by_cases hc : r.code ≠ 0
      · have r1 : getServiceInstances c0 (.ok r) =
            (none, c0, [.execCLI "svcat get instances",
                        .showError "Error retrieving Service Instances"]) := by
          unfold getServiceInstances
          rw [if_neg hg]
          exact if_pos hc
        rw [r1] at h1
        exact absurd hn0 h1
      · have r1 : getServiceInstances c0 (.ok r) =
            (some (cleanUpInstanceResults c0 r.stdout).2,
             (cleanUpInstanceResults c0 r.stdout).1, [.execCLI "svcat get instances"]) := by
          unfold getServiceInstances
          rw [if_neg hg]
          exact if_neg hc
        rw [r1] at h1 h2
        have hg3 : (cleanUpInstanceResults c0 r.stdout).1.names.length ≠ 0 ∧
            (cleanUpInstanceResults c0 r.stdout).1.map.length ≠ 0 := by
          constructor
          · intro hzero
            exact h1 (List.length_eq_zero.mp hzero)
          · intro hzero
            exact h2 (List.length_eq_zero.mp hzero)
        have r2 : getServiceInstances (cleanUpInstanceResults c0 r.stdout).1 e2 =
            (some (cleanUpInstanceResults c0 r.stdout).1.array,
             (cleanUpInstanceResults c0 r.stdout).1, []) := by
          unfold getServiceInstances
          rw [if_pos hg3]
        have hc1arr : (cleanUpInstanceResults c0 r.stdout).1.array =
            (cleanUpInstanceResults c0 r.stdout).2 := by
          show (cacheAppend c0 ((dataRows r.stdout).map parseLine)).array = _
          rw [cacheAppend_array, harr]
          rfl
        rw [r1, r2]
        refine ⟨rfl, ?_, ?_⟩
        · rw [hc1arr]
        · show ([Effect.execCLI "svcat get instances"] ++ ([] : List Effect)).count
            (Effect.execCLI "svcat get instances") ≤ 1
          decide

theorem C4_cache_populated_once_witness :
    CacheState.wf ⟨[], [], []⟩ ∧
    (getServiceInstances ⟨[], [], []⟩
        (.ok ⟨0, "T\nH\nfoo default db free Ready", ""⟩)).2.1.names ≠ [] ∧
    (getServiceInstances ⟨[], [], []⟩
        (.ok ⟨0, "T\nH\nfoo default db free Ready", ""⟩)).2.1.map ≠ [] ∧
    ((getServiceInstances (getServiceInstances ⟨[], [], []⟩
          (.ok ⟨0, "T\nH\nfoo default db free Ready", ""⟩)).2.1 .threw).2.2 = [] ∧
     (getServiceInstances (getServiceInstances ⟨[], [], []⟩
          (.ok ⟨0, "T\nH\nfoo default db free Ready", ""⟩)).2.1 .threw).1 =
        (getServiceInstances ⟨[], [], []⟩
          (.ok ⟨0, "T\nH\nfoo default db free Ready", ""⟩)).1 ∧
     ((getServiceInstances ⟨[], [], []⟩
          (.ok ⟨0, "T\nH\nfoo default db free Ready", ""⟩)).2.2 ++
       (getServiceInstances (getServiceInstances ⟨[], [], []⟩
          (.ok ⟨0, "T\nH\nfoo default db free Ready", ""⟩)).2.1 .threw).2.2).count
        (Effect.execCLI "svcat get instances") ≤ 1) :=
  ⟨⟨⟨fun _ => rfl, fun _ => rfl⟩, ⟨fun _ => rfl, fun _ => rfl⟩⟩, by decide, by decide,
   C4_cache_populated_once ⟨[], [], []⟩
     (.ok ⟨0, "T\nH\nfoo default db free Ready", ""⟩) .threw
     ⟨⟨fun _ => rfl, fun _ => rfl⟩, ⟨fun _ => rfl, fun _ => rfl⟩⟩ (by decide) (by decide)⟩

/-- C2: when the serviceEnv section of the document already contains an
entry named X and the user selects X again, the add-service flow leaves
the whole document unchanged and performs no file delete or write. -/
theorem C2_duplicate_add_no_persist (doc : ChartYaml) (sr : GetSvcResult)
    (sel : Option String) (X : String)
    (hsel : sel = some X)
    (hdup : isBindingAdded .serviceEnv X doc.yaml = true) :
    (addService doc sr sel).doc = doc ∧
    ((addService doc sr sel).effects.filter Effect.isPersist) = [] := by
  subst hsel
  unfold addService
  split
  · exact ⟨rfl, rfl⟩
  split
  · exact ⟨rfl, rfl⟩
  split
  · exact ⟨rfl, rfl⟩
  split
  · exact ⟨rfl, rfl⟩
  next serviceObj heq =>
    split
    · exact ⟨rfl, rfl⟩
    next hnb =>
      exfalso
      have hx : serviceObj.name = X := by
        have hp := List.find?_some heq
        simpa using hp
      rw [hx] at hnb
      exact hnb hdup

theorem C2_duplicate_add_no_persist_witness :
    (some "svc1" : Option String) = some "svc1" ∧
    isBindingAdded .serviceEnv "svc1"
      ⟨some [⟨"svc1", BindingPayload.value (.str "h")⟩], none, []⟩ = true ∧
    ((addService ⟨"p", ⟨some [⟨"svc1", BindingPayload.value (.str "h")⟩], none, []⟩⟩
        ⟨0, [⟨"svc1", "default"⟩]⟩ (some "svc1")).doc =
      ⟨"p", ⟨some [⟨"svc1", BindingPayload.value (.str "h")⟩], none, []⟩⟩ ∧
     ((addService ⟨"p", ⟨some [⟨"svc1", BindingPayload.value (.str "h")⟩], none, []⟩⟩
        ⟨0, [⟨"svc1", "default"⟩]⟩ (some "svc1")).effects.filter Effect.isPersist) = []) :=
  ⟨rfl, by decide,
   C2_duplicate_add_no_persist
     ⟨"p", ⟨some [⟨"svc1", BindingPayload.value (.str "h")⟩], none, []⟩⟩
     ⟨0, [⟨"svc1", "default"⟩]⟩ (some "svc1") "svc1" rfl (by decide)⟩

/-- Whenever the bind wrapper returns an actual string, it is exactly
the string it was asked to bind. -/
theorem bindOutcome_str (sn : Option String) (ex : ExecAttempt) (b : String)
    (h : (createOrGetServiceBinding sn ex).binding = .str b) : sn = some b := by
  cases sn with
  | some s =>
    cases ex with
    | threw => simp [createOrGetServiceBinding] at h
    | ok r =>
      by_cases hc : r.code ≠ 0
      · by_cases hi : jsIndexOf r.stderr "already exists" ≠ 0
        · simp [createOrGetServiceBinding, hc, hi, jsOfOpt] at h
          rw [h]
        · simp [createOrGetServiceBinding, hc, hi, jsOfOpt] at h
      · simp [createOrGetServiceBinding, hc, jsOfOpt] at h
        rw [h]
  | none =>
    cases ex with
    | threw => simp [createOrGetServiceBinding] at h
    | ok r =>
      by_cases hc : r.code ≠ 0
      · by_cases hi : jsIndexOf r.stderr "already exists" ≠ 0
        · simp [createOrGetServiceBinding, hc, hi, jsOfOpt] at h
        · simp [createOrGetServiceBinding, hc, hi, jsOfOpt] at h
      · simp [createOrGetServiceBinding, hc, jsOfOpt] at h

/-- C10: a non-null result of `createOrGetServiceBinding` is exactly the
requested service name, and consequently any `serviceCatalogEnv` entry
the external flow persists is named after the selected instance, never
after a CLI-generated name. -/
theorem C10_binding_named_after_selection :
    (∀ (sn : Option String) (ex : ExecAttempt) (b : String),
        (createOrGetServiceBinding sn ex).binding = .str b → sn = some b) ∧
    (∀ (inp : ExtFlowInput),
        (addExternalService inp).doc.yaml.serviceCatalogEnv =
          inp.chart.yaml.serviceCatalogEnv ∨
        ∃ sel keys, inp.selection = some sel ∧
          (addExternalService inp).doc.yaml.serviceCatalogEnv =
            some ((inp.chart.yaml.serviceCatalogEnv).getD [] ++
              [⟨sel, BindingPayload.vars (.list keys)⟩])) := by
  constructor
  · exact fun sn ex b h => bindOutcome_str sn ex b h
  · intro inp
    unfold addExternalService
    simp only
    cases hb : (createOrGetServiceBinding inp.selection inp.bindExec).binding with
    | null => exact Or.inl rfl
    | undefVal => exact Or.inl rfl
    | str s =>
      dsimp only
      by_cases hs : s = ""
      · subst hs
        exact Or.inl rfl
      · have htr : (JsStrVal.str s).truthy = true := by
          simp [JsStrVal.truthy, hs]
        rw [if_neg (by rw [htr]; decide)]
        by_cases hadd : isBindingAdded .serviceCatalogEnv s inp.chart.yaml
        · rw [if_pos hadd]
          exact Or.inl rfl
        · rw [if_neg hadd]
          cases hsec : (getSecretData s inp.secretExec).1 with
          | none => exact Or.inl rfl
          | some keys =>
            refine Or.inr ⟨s, keys, bindOutcome_str inp.selection inp.bindExec s hb, ?_⟩
            exact (writeSecretData_sections .serviceCatalogEnv s (.list keys) inp.chart).2.1

theorem C10_binding_named_after_selection_witness :
    (createOrGetServiceBinding (some "mydb") (.ok ⟨0, "", ""⟩)).binding = .str "mydb" ∧
    (some "mydb" : Option String) = some "mydb" :=
  ⟨rfl, C10_binding_named_after_selection.1 (some "mydb") (.ok ⟨0, "", ""⟩) "mydb" rfl⟩

/-- C8: the claim says a cancelled or empty selection aborts every flow
silently, with no notice and nothing invoked.  The external flow has no
such guard: with a cancelled prompt (`undefined`) it still invokes
`svcat bind undefined`, and when that invocation throws it shows an
error notice before aborting.  (The removal flow does guard the
selection; addService guards only the empty string, and a cancelled
prompt there crashes on the unguarded name filter.) -/
theorem C8_cancelled_selection_not_silent :
    addExternalService
      ⟨⟨"p", ⟨none, none, []⟩⟩,
       ⟨[some "inst"], [(some "inst", ⟨some "inst", some "ns", some "c", some "pl", some "st"⟩)],
        [⟨some "inst", some "ns", some "c", some "pl", some "st"⟩]⟩,
       .threw, none, .threw, .threw⟩ =
      ⟨⟨"p", ⟨none, none, []⟩⟩,
       ⟨[some "inst"], [(some "inst", ⟨some "inst", some "ns", some "c", some "pl", some "st"⟩)],
        [⟨some "inst", some "ns", some "c", some "pl", some "st"⟩]⟩,
       [.execCLI "svcat bind undefined",
        .showError "Error binding to External Service \"undefined\""], .returned⟩ := by
  decide

/-- C9: the claim says a failed secret lookup is reported and the flow
aborts cleanly with nothing escaping the entry point.  The code does
report the error and persists nothing, but then calls
`Object.keys(undefined)` on the absent result, so the flow ends in an
unhandled TypeError instead of a clean abort. -/
theorem C9_secret_failure_crashes :
    addExternalService
      ⟨⟨"p", ⟨none, none, []⟩⟩,
       ⟨[some "inst"], [(some "inst", ⟨some "inst", some "ns", some "c", some "pl", some "st"⟩)],
        [⟨some "inst", some "ns", some "c", some "pl", some "st"⟩]⟩,
       .threw, some "mydb", .ok ⟨0, "", ""⟩, .ok 1 []⟩ =
      ⟨⟨"p", ⟨none, none, []⟩⟩,
       ⟨[some "inst"], [(some "inst", ⟨some "inst", some "ns", some "c", some "pl", some "st"⟩)],
        [⟨some "inst", some "ns", some "c", some "pl", some "st"⟩]⟩,
       [.execCLI "svcat bind mydb",
        .execCLI "get secret mydb -o json",
        .showError "Could not get External Service mydb on the cluster"], .crashed⟩ := by
  decide

end SvcBinding
